import Mathlib

/-!
Shallow embedding of the `InventoryDatabase` persistence layer of the
Inventory Management System (file `inventory_management_system.py`,
class `InventoryDatabase`), backed by an SQLite table `items`.

Modelling decisions, each tied to the source:
* The SQLite table is a list of rows in insertion (rowid) order together
  with the `AUTOINCREMENT` counter for the next `id`.
* `TIMESTAMP` columns (`created_at`, `updated_at`) are natural numbers:
  SQLite's `CURRENT_TIMESTAMP` has one-second resolution, so an operation
  receives the current clock reading `now : Nat` as an explicit argument;
  both `DEFAULT CURRENT_TIMESTAMP` columns of one `INSERT` receive the
  same statement time.
* `REAL` (`price`) is modelled as `Rat`; `INTEGER` (`quantity`) as `Int`.
* A Python method that can `raise ValueError` is modelled with `Except`;
  the value a method `return`s to its caller is modelled explicitly
  (Python's implicit `return None` becomes `none`).
* SQL `LIKE` (used by the search filter) is SQLite's default `LIKE`:
  `%` matches any sequence, `_` matches any single character, and
  letter comparison folds ASCII `A`–`Z` to lower case only.
* `ORDER BY name` uses SQLite's default BINARY collation, i.e. byte-wise
  comparison of the UTF-8 encodings, which coincides with lexicographic
  comparison of the code points.
-/

/-- ASCII-only lower-case folding, as performed by SQLite's default
`LIKE` (`A`–`Z` fold to `a`–`z`; all other characters compare exactly). -/
def charFold (c : Char) : Char :=
  if 65 ≤ c.toNat ∧ c.toNat ≤ 90 then Char.ofNat (c.toNat + 32) else c

/-- SQLite's default `LIKE` pattern matching on character lists:
`%` matches any (possibly empty) sequence, `_` matches exactly one
character, any other pattern character matches one text character up to
ASCII case folding.  The `%` case is expressed as "some split works",
which is what SQLite's backtracking matcher computes. -/
def likeMatch : List Char → List Char → Bool
  | [], s => s.isEmpty
  | p :: ps, s =>
    if p = '%' then
      (List.range (s.length + 1)).any fun n => likeMatch ps (s.drop n)
    else if p = '_' then
      match s with
      | [] => false
      | _ :: s' => likeMatch ps s'
    else
      match s with
      | [] => false
      | c :: s' => (charFold p == charFold c) && likeMatch ps s'

/-- Byte-wise (BINARY-collation) `≤` on text, as used by SQLite's
`ORDER BY` on a `TEXT` column: lexicographic comparison of code points,
which equals byte-wise comparison of the UTF-8 encodings. -/
def lexLe : List Char → List Char → Bool
  | [], _ => true
  | _ :: _, [] => false
  | a :: as, b :: bs =>
    if a.toNat < b.toNat then true
    else if b.toNat < a.toNat then false
    else lexLe as bs

/-- One row of the `items` table (schema from `init_database`). -/
structure Item where
  id : Nat
  name : String
  category : String
  quantity : Int
  price : Rat
  description : String
  created_at : Nat
  updated_at : Nat
deriving Repr, DecidableEq

/-- The state of the store: the rows of the `items` table in rowid
order, plus the `AUTOINCREMENT` counter (ids are never reused). -/
structure InventoryDatabase where
  items : List Item
  nextId : Nat
deriving Repr, DecidableEq

/-- A freshly initialised database (`init_database` on a new file):
no rows, first id to be assigned is 1. -/
def emptyDB : InventoryDatabase := ⟨[], 1⟩

/-- `InventoryDatabase.create_item`.  Validation mirrors the Python
exactly: `if not name or not category` rejects only the empty string
(Python truthiness — no whitespace trimming happens in this method), and
`if quantity < 0 or price < 0` rejects negatives.  On success the row is
inserted with a fresh id and both timestamp columns set to the statement
time.  The second component of the `ok` value is what the Python method
`return`s to its caller: the method has no `return` statement, so the
caller receives `None`, modelled as `none` — the new id is not returned. -/
def create_item (db : InventoryDatabase) (now : Nat) (name : String)
    (quantity : Int) (price : Rat) (category : String)
    (description : String) :
    Except String (InventoryDatabase × Option Nat) :=
  if name = "" ∨ category = "" then
    .error "Name and category are required"
  else if quantity < 0 ∨ price < 0 then
    .error "Quantity and price must be non-negative"
  else
    .ok (⟨db.items ++
        [⟨db.nextId, name, category, quantity, price, description, now, now⟩],
        db.nextId + 1⟩, none)

/-- `InventoryDatabase.get_item_by_id`: `SELECT * FROM items WHERE id = ?`
with `fetchone`, then `dict(row) if row else None`. -/
def get_item_by_id (db : InventoryDatabase) (item_id : Nat) : Option Item :=
  db.items.find? fun it => it.id == item_id

/-- The `WHERE` clause built by `get_all_items`: a `category` filter is
added only when the argument is truthy (so `None` and `""` both mean "no
filter"), and likewise a `(name LIKE '%t%' OR description LIKE '%t%')`
filter only when `search_term` is truthy. -/
def rowMatches (category search_term : Option String) (it : Item) : Bool :=
  (match category with
   | none => true
   | some c => if c = "" then true else it.category == c)
  &&
  (match search_term with
   | none => true
   | some t =>
     if t = "" then true
     else likeMatch ('%' :: t.data ++ ['%']) it.name.data
          || likeMatch ('%' :: t.data ++ ['%']) it.description.data)

/-- `ORDER BY name` comparison between rows (BINARY collation on the
`name` column). -/
def itemLe (a b : Item) : Prop := lexLe a.name.data b.name.data = true

instance : DecidableRel itemLe := fun a b =>
  inferInstanceAs (Decidable (lexLe a.name.data b.name.data = true))

/-- `InventoryDatabase.get_all_items`: `SELECT * FROM items WHERE 1=1`
with optional `category` and search filters, `ORDER BY name`. -/
def get_all_items (db : InventoryDatabase)
    (category search_term : Option String) : List Item :=
  List.insertionSort itemLe (db.items.filter (rowMatches category search_term))

/-- The `SET` clause of `update_item`'s `UPDATE` statement: it lists
`name`, `category`, `quantity`, `price`, `description` and
`updated_at=CURRENT_TIMESTAMP`; `id` and `created_at` are not in the
list and stay as they are. -/
def setClause (now : Nat) (name : String) (quantity : Int) (price : Rat)
    (category description : String) (it : Item) : Item :=
  { it with name := name, category := category, quantity := quantity,
            price := price, description := description, updated_at := now }

/-- The effect of `update_item`'s `UPDATE ... WHERE id=?` on one row:
rows whose `id` matches get the `SET` clause applied, all others are
untouched. -/
def updateRow (now : Nat) (name : String) (quantity : Int) (price : Rat)
    (category description : String) (item_id : Nat) (it : Item) : Item :=
  if it.id = item_id then
    setClause now name quantity price category description it
  else it

/-- `InventoryDatabase.update_item`.  Validation is identical to
`create_item`; afterwards `UPDATE items SET ... , updated_at=CURRENT_TIMESTAMP
WHERE id=?` rewrites every row whose id matches (there is no existence
check: an unknown id simply updates zero rows and the method still
returns normally). -/
def update_item (db : InventoryDatabase) (now : Nat) (item_id : Nat)
    (name : String) (quantity : Int) (price : Rat) (category : String)
    (description : String) : Except String InventoryDatabase :=
  if name = "" ∨ category = "" then
    .error "Name and category are required"
  else if quantity < 0 ∨ price < 0 then
    .error "Quantity and price must be non-negative"
  else
    .ok ⟨db.items.map
        (updateRow now name quantity price category description item_id),
      db.nextId⟩

/-- `updateRow` never changes the `id` column (it is not in the `SET`
list). -/
theorem updateRow_id (now : Nat) (name : String) (quantity : Int)
    (price : Rat) (category description : String) (item_id : Nat)
    (it : Item) :
    (updateRow now name quantity price category description item_id it).id
      = it.id := by
  unfold updateRow setClause
  split <;> rfl

/-- `InventoryDatabase.delete_item`: `DELETE FROM items WHERE id = ?`.
The second component is the value the Python method `return`s: there is
no `return` statement, so the caller receives `None` — in particular no
affected-row count and no error, whether or not the id existed. -/
def delete_item (db : InventoryDatabase) (item_id : Nat) :
    InventoryDatabase × Option Nat :=
  (⟨db.items.filter fun it => !(it.id == item_id), db.nextId⟩, none)

/-- BINARY-collation `≤` on `TEXT` values, for `ORDER BY category`. -/
def strLe (a b : String) : Prop := lexLe a.data b.data = true

instance : DecidableRel strLe := fun a b =>
  inferInstanceAs (Decidable (lexLe a.data b.data = true))

/-- `InventoryDatabase.get_categories`:
`SELECT DISTINCT category FROM items ORDER BY category` — the distinct
category values, sorted. -/
def get_categories (db : InventoryDatabase) : List String :=
  List.insertionSort strLe (db.items.map Item.category).dedup

/-- Result row of `get_summary_stats`.  `COUNT` never yields SQL `NULL`,
but `SUM` yields `NULL` when there are no rows, hence the `Option`s. -/
structure SummaryStats where
  total_items : Nat
  total_quantity : Option Int
  total_value : Option Rat
  total_categories : Nat
deriving Repr, DecidableEq

/-- `InventoryDatabase.get_summary_stats`: `COUNT(*)`, `SUM(quantity)`,
`SUM(quantity * price)`, `COUNT(DISTINCT category)` over `items`.
Per SQL semantics, `SUM` over an empty table is `NULL` (not 0), while
both `COUNT` forms return 0. -/
def get_summary_stats (db : InventoryDatabase) : SummaryStats :=
  ⟨db.items.length,
   if db.items.isEmpty then none
   else some (db.items.map Item.quantity).sum,
   if db.items.isEmpty then none
   else some ((db.items.map fun it => (it.quantity : ℚ) * it.price).sum),
   (db.items.map Item.category).dedup.length⟩

/-- The post-state a caller observes after invoking `create_item`: when
the Python method raises, it does so before opening the connection, so
the database is exactly as before. -/
def create_item_post (db : InventoryDatabase) (now : Nat) (name : String)
    (quantity : Int) (price : Rat) (category : String)
    (description : String) : InventoryDatabase :=
  match create_item db now name quantity price category description with
  | .ok (db', _) => db'
  | .error _ => db

/-- The post-state a caller observes after invoking `update_item`
(validation happens before any write, so a raise leaves the store as it
was). -/
def update_item_post (db : InventoryDatabase) (now : Nat) (item_id : Nat)
    (name : String) (quantity : Int) (price : Rat) (category : String)
    (description : String) : InventoryDatabase :=
  match update_item db now item_id name quantity price category description with
  | .ok db' => db'
  | .error _ => db

/-- `true` exactly when the call raised (`ValueError` in the Python). -/
def raisesError {ε α : Type} : Except ε α → Bool
  | .error _ => true
  | .ok _ => false

/-- Database states reachable from a fresh database by any sequence of
successful or failed `create_item` / `update_item` / `delete_item`
calls (failed calls leave the state unchanged, so only successful ones
matter). -/
inductive Reachable : InventoryDatabase → Prop where
  | empty : Reachable emptyDB
  | create (db : InventoryDatabase) (now : Nat) (name : String)
      (quantity : Int) (price : Rat) (category description : String)
      (db' : InventoryDatabase) (r : Option Nat) :
      Reachable db →
      create_item db now name quantity price category description
        = .ok (db', r) →
      Reachable db'
  | update (db : InventoryDatabase) (now item_id : Nat) (name : String)
      (quantity : Int) (price : Rat) (category description : String)
      (db' : InventoryDatabase) :
      Reachable db →
      update_item db now item_id name quantity price category description
        = .ok db' →
      Reachable db'
  | delete (db : InventoryDatabase) (item_id : Nat) :
      Reachable db →
      Reachable (delete_item db item_id).1

/-- The invariant the store actually maintains on every row: `name` and
`category` are non-empty strings and `quantity`, `price` are
non-negative. -/
def WfItem (it : Item) : Prop :=
  it.name ≠ "" ∧ it.category ≠ "" ∧ 0 ≤ it.quantity ∧ 0 ≤ it.price

/-- All rows of the store satisfy `WfItem`. -/
def Wf (db : InventoryDatabase) : Prop := ∀ it ∈ db.items, WfItem it

/-- Spec-side notion (from the claims' wording): `t` occurs in `s` as a
prefix, up to ASCII case folding. -/
def startsFold : List Char → List Char → Bool
  | [], _ => true
  | _ :: _, [] => false
  | a :: as, b :: bs => (charFold a == charFold b) && startsFold as bs

/-- Spec-side notion (from the claims' wording): `t` occurs in `s` as a
contiguous substring, up to ASCII case folding ("name or description
contains the term as a substring, case-insensitively"). -/
def containsFold : List Char → List Char → Bool
  | t, [] => t.isEmpty
  | t, c :: s => startsFold t (c :: s) || containsFold t s

/-- `t` contains neither of the `LIKE` metacharacters `%` and `_`. -/
def wildcardFree (t : List Char) : Bool :=
  t.all fun c => decide (c ≠ '%' ∧ c ≠ '_')

/-! ### Order facts about the BINARY collation -/

theorem lexLe_total (a b : List Char) : lexLe a b = true ∨ lexLe b a = true := by
  induction a generalizing b with
  | nil => left; rfl
  | cons x xs ih =>
    cases b with
    | nil => right; rfl
    | cons y ys =>
      simp only [lexLe]
      rcases Nat.lt_trichotomy x.toNat y.toNat with h | h | h
      · left; rw [if_pos h]
      · rw [if_neg (by omega), if_neg (by omega), if_neg (by omega),
          if_neg (by omega)]
        exact ih ys
      · right; rw [if_pos h]

theorem lexLe_trans (a b c : List Char) (h1 : lexLe a b = true)
    (h2 : lexLe b c = true) : lexLe a c = true := by
  induction a generalizing b c with
  | nil => rfl
  | cons x xs ih =>
    cases b with
    | nil => simp [lexLe] at h1
    | cons y ys =>
      cases c with
      | nil => simp [lexLe] at h2
      | cons z zs =>
        simp only [lexLe] at h1 h2 ⊢
        split_ifs at h1 h2 ⊢ <;>
          first
            | rfl
            | (exfalso; omega)
            | (exact ih ys zs h1 h2)

instance : IsTrans Item itemLe :=
  ⟨fun _ _ _ h1 h2 => lexLe_trans _ _ _ h1 h2⟩

instance : IsTotal Item itemLe :=
  ⟨fun a b => lexLe_total a.name.data b.name.data⟩

instance : IsTrans String strLe :=
  ⟨fun _ _ _ h1 h2 => lexLe_trans _ _ _ h1 h2⟩

instance : IsTotal String strLe :=
  ⟨fun a b => lexLe_total a.data b.data⟩

/-! ### Query helpers -/

theorem mem_get_all_items {db : InventoryDatabase}
    {c s : Option String} {it : Item} :
    it ∈ get_all_items db c s ↔ it ∈ db.items ∧ rowMatches c s it = true := by
  unfold get_all_items
  rw [List.mem_insertionSort]
  exact List.mem_filter

theorem sorted_get_all_items (db : InventoryDatabase) (c s : Option String) :
    List.Sorted itemLe (get_all_items db c s) :=
  List.sorted_insertionSort itemLe _

/-! ### `LIKE '%term%'` versus substring containment -/

theorem likeMatch_pct (ps s : List Char) :
    likeMatch ('%' :: ps) s = true ↔ ∃ n, likeMatch ps (s.drop n) = true := by
  have h0 : likeMatch ('%' :: ps) s
      = (List.range (s.length + 1)).any fun n => likeMatch ps (s.drop n) := by
    simp [likeMatch]
  rw [h0, List.any_eq_true]
  constructor
  · rintro ⟨n, _, h⟩
    exact ⟨n, h⟩
  · rintro ⟨n, h⟩
    by_cases hn : n ≤ s.length
    · exact ⟨n, List.mem_range.mpr (by omega), h⟩
    · refine ⟨s.length, List.mem_range.mpr (by omega), ?_⟩
      have hd : s.drop n = [] := List.drop_eq_nil_of_le (by omega)
      rw [List.drop_length]
      rw [hd] at h
      exact h

theorem likeMatch_append_pct (t : List Char) (hw : wildcardFree t = true) :
    ∀ s, likeMatch (t ++ ['%']) s = true ↔ startsFold t s = true := by
  induction t with
  | nil =>
    intro s
    simp only [List.nil_append, startsFold, iff_true]
    exact (likeMatch_pct [] s).mpr
      ⟨s.length, by rw [List.drop_length]; rfl⟩
  | cons a as ih =>
    simp only [wildcardFree, List.all_cons, Bool.and_eq_true,
      decide_eq_true_eq] at hw
    obtain ⟨⟨ha1, ha2⟩, hw'⟩ := hw
    intro s
    cases s with
    | nil =>
      simp only [List.cons_append, likeMatch, if_neg ha1, if_neg ha2,
        startsFold]
    | cons c s' =>
      simp only [List.cons_append, likeMatch, if_neg ha1, if_neg ha2,
        startsFold, Bool.and_eq_true]
      exact and_congr_right fun _ => ih hw' s'

theorem containsFold_iff_drop (t s : List Char) :
    containsFold t s = true ↔ ∃ n, startsFold t (s.drop n) = true := by
  induction s with
  | nil =>
    cases t <;> simp [containsFold, startsFold]
  | cons c s' ih =>
    simp only [containsFold, Bool.or_eq_true]
    constructor
    · rintro (h | h)
      · exact ⟨0, h⟩
      · obtain ⟨n, hn⟩ := ih.mp h
        exact ⟨n + 1, by simpa using hn⟩
    · rintro ⟨n, hn⟩
      cases n with
      | zero => left; simpa using hn
      | succ m => right; exact ih.mpr ⟨m, by simpa using hn⟩

/-- For a search term without `LIKE` metacharacters, the filter the code
builds (`LIKE '%term%'`) is exactly case-folded substring containment. -/
theorem likeMatch_contains (t : List Char) (hw : wildcardFree t = true)
    (s : List Char) :
    likeMatch ('%' :: t ++ ['%']) s = true ↔ containsFold t s = true := by
  rw [show ('%' :: t ++ ['%']) = '%' :: (t ++ ['%']) from rfl,
    likeMatch_pct, containsFold_iff_drop]
  constructor <;> rintro ⟨n, hn⟩
  · exact ⟨n, (likeMatch_append_pct t hw _).mp hn⟩
  · exact ⟨n, (likeMatch_append_pct t hw _).mpr hn⟩

/-! ### Claim C10 -/

/-- C10: calling `get_all_items` with `category = ""` behaves exactly like
calling it with no category filter, and likewise `search_term = ""`
behaves like no search filter: Python's `if category:` / `if search_term:`
treat the empty string as "no filter". -/
theorem get_all_items_empty_string_filters (db : InventoryDatabase)
    (c s : Option String) :
    get_all_items db (some "") s = get_all_items db none s
  ∧ get_all_items db c (some "") = get_all_items db c none := by
  have h1 : rowMatches (some "") s = rowMatches none s := by
    funext it; simp [rowMatches]
  have h2 : rowMatches c (some "") = rowMatches c none := by
    funext it; simp [rowMatches]
  constructor
  · unfold get_all_items; rw [h1]
  · unfold get_all_items; rw [h2]

/-! ### Claim C2 -/

/-- C2 counterexample: `update_item` on an id that does not exist (id 1 in
an empty store), with perfectly valid fields, does **not** fail with any
not-found error — the `UPDATE` simply affects zero rows and the method
returns normally, the store unchanged. -/
theorem update_item_missing_id_no_error :
    update_item emptyDB 0 1 "Widget" 5 10 "Tools" "" = .ok emptyDB := by rfl

/-- C2 (amended): `update_item` on an id not present in the store, with
valid fields, succeeds silently (there is no `NotFoundError` in the code)
and leaves the store state completely unchanged. -/
theorem update_item_missing_id (db : InventoryDatabase) (now item_id : Nat)
    (name : String) (quantity : Int) (price : Rat)
    (category description : String)
    (hid : get_item_by_id db item_id = none)
    (hn : name ≠ "") (hc : category ≠ "")
    (hq : 0 ≤ quantity) (hp : 0 ≤ price) :
    update_item db now item_id name quantity price category description
      = .ok db := by
  unfold update_item
  rw [if_neg (not_or.mpr ⟨hn, hc⟩),
    if_neg (not_or.mpr ⟨not_lt.mpr hq, not_lt.mpr hp⟩)]
  have hnone : ∀ it ∈ db.items, ¬(it.id == item_id) = true := by
    unfold get_item_by_id at hid
    exact List.find?_eq_none.mp hid
  have hmap : ∀ it ∈ db.items,
      updateRow now name quantity price category description item_id it
        = id it := by
    intro it hmem
    have : it.id ≠ item_id := by simpa using hnone it hmem
    simp [updateRow, this]
  rw [List.map_congr_left hmap, List.map_id]

/-- C2 witness. -/
theorem update_item_missing_id_witness :
    update_item emptyDB 7 42 "Widget" 5 10 "Tools" "" = .ok emptyDB :=
  update_item_missing_id emptyDB 7 42 "Widget" 5 10 "Tools" ""
    (by decide) (by decide) (by decide) (by decide) (by decide)

/-! ### Claim C3 -/

/-- C3 counterexample: the code checks only Python truthiness
(`if not name`), so a whitespace-only name — which is non-empty after no
trimming takes place — passes validation: `create_item` with name `" "`
succeeds instead of raising a validation error. -/
theorem create_item_whitespace_name_passes :
    raisesError (create_item emptyDB 0 " " 0 0 "c" "") = false
  ∧ " ".data.all Char.isWhitespace = true := by
  constructor <;> rfl

/-- C3 (amended): `create_item` and `update_item` fail with a
`ValueError` exactly when `name` or `category` is the *empty string*
(no whitespace trimming is performed, so whitespace-only strings pass),
or `quantity < 0`, or `price < 0`; a failing call raises before touching
the database, leaving the store state unchanged. -/
theorem validation_exact (db : InventoryDatabase) (now item_id : Nat)
    (name : String) (quantity : Int) (price : Rat)
    (category description : String) :
    (raisesError (create_item db now name quantity price category description)
        = true ↔ (name = "" ∨ category = "" ∨ quantity < 0 ∨ price < 0))
  ∧ (raisesError
        (update_item db now item_id name quantity price category description)
        = true ↔ (name = "" ∨ category = "" ∨ quantity < 0 ∨ price < 0))
  ∧ (raisesError (create_item db now name quantity price category description)
        = true →
      create_item_post db now name quantity price category description = db)
  ∧ (raisesError
        (update_item db now item_id name quantity price category description)
        = true →
      update_item_post db now item_id name quantity price category description
        = db) := by
  unfold create_item_post update_item_post raisesError create_item update_item
  split_ifs with h1 h2 <;> (simp_all; try tauto)

/-- C3 witness. -/
theorem validation_exact_witness :
    raisesError (create_item emptyDB 3 "" 1 1 "Tools" "") = true
  ∧ create_item_post emptyDB 3 "" 1 1 "Tools" "" = emptyDB := by
  have h := validation_exact emptyDB 3 0 "" 1 1 "Tools" ""
  exact ⟨h.1.mpr (Or.inl rfl), h.2.2.1 (h.1.mpr (Or.inl rfl))⟩

/-! ### Claim C4 -/

/-- C4 counterexample: on an empty store `get_summary_stats` returns SQL
`NULL` (Python `None`) for `total_quantity` and `total_value` — `SUM`
over zero rows is `NULL`, not 0 — so callers *do* receive nulls,
contradicting the claim's `total_quantity=0` / `total_value=0.0`. -/
theorem get_summary_stats_empty_nulls :
    get_summary_stats emptyDB = ⟨0, none, none, 0⟩ := by rfl

/-- C4 (amended): `get_summary_stats` returns the total item count, and
the number of distinct categories (equal to the length of
`get_categories`); on a *non-empty* store it returns the sum of all
quantities and the sum of `quantity * price`; on an empty store,
`total_items = 0` and `total_categories = 0`, but `total_quantity` and
`total_value` are `NULL`/`None` rather than zero. -/
theorem get_summary_stats_spec (db : InventoryDatabase) :
    (get_summary_stats db).total_items = db.items.length
  ∧ (get_summary_stats db).total_categories = (get_categories db).length
  ∧ (db.items ≠ [] →
      (get_summary_stats db).total_quantity
          = some (db.items.map Item.quantity).sum
    ∧ (get_summary_stats db).total_value
          = some ((db.items.map fun it => (it.quantity : ℚ) * it.price).sum))
  ∧ (db.items = [] →
      (get_summary_stats db).total_quantity = none
    ∧ (get_summary_stats db).total_value = none) := by
  refine ⟨rfl, ?_, fun h => ?_, fun h => ?_⟩
  · exact ((List.perm_insertionSort strLe
      ((db.items.map Item.category).dedup)).length_eq).symm
  · have hne : db.items.isEmpty = false := by
      cases hh : db.items with
      | nil => exact absurd hh h
      | cons a l => rfl
    constructor <;> simp [get_summary_stats, hne]
  · constructor <;> simp [get_summary_stats, h]

/-- C4 witness. -/
theorem get_summary_stats_spec_witness :
    ((⟨[⟨1, "a", "c", 2, 10, "", 0, 0⟩], 2⟩ : InventoryDatabase).items ≠ [])
  ∧ (get_summary_stats ⟨[⟨1, "a", "c", 2, 10, "", 0, 0⟩], 2⟩).total_quantity
      = some (((⟨[⟨1, "a", "c", 2, 10, "", 0, 0⟩], 2⟩ :
          InventoryDatabase).items.map Item.quantity).sum) := by
  have hne : ((⟨[⟨1, "a", "c", 2, 10, "", 0, 0⟩], 2⟩ :
      InventoryDatabase).items ≠ []) := by decide
  exact ⟨hne,
    ((get_summary_stats_spec ⟨[⟨1, "a", "c", 2, 10, "", 0, 0⟩], 2⟩).2.2.1
      hne).1⟩

/-! ### Claim C8 -/

/-- C8 counterexample: the Python `delete_item` has no `return`
statement, so nothing is "reported to the caller as no row affected" —
the caller receives `None` whether or not the id existed (indeed
`app.py` misreads this `None` as failure).  Deleting a missing id still
does not throw and leaves the store unchanged. -/
theorem delete_item_reports_nothing :
    (delete_item emptyDB 1).2 = none ∧ (delete_item emptyDB 1).1 = emptyDB :=
  ⟨rfl, rfl⟩

/-- C8 (amended): `delete_item` on a present id permanently removes the
row, so a subsequent `get_item_by_id` returns `None`; on an absent id it
does not throw (it is a total no-op on the state); deleting the same id
twice is harmless (the second call returns the same state); but the
method returns `None` — no "rows affected" report reaches the caller. -/
theorem delete_item_spec (db : InventoryDatabase) (item_id : Nat) :
    get_item_by_id (delete_item db item_id).1 item_id = none
  ∧ delete_item (delete_item db item_id).1 item_id = delete_item db item_id
  ∧ (∀ it, it ∈ (delete_item db item_id).1.items
        ↔ it ∈ db.items ∧ it.id ≠ item_id)
  ∧ (delete_item db item_id).2 = none := by
  refine ⟨?_, ?_, fun it => ?_, rfl⟩
  · unfold get_item_by_id delete_item
    rw [List.find?_eq_none]
    intro x hx
    have := (List.mem_filter.mp hx).2
    simp_all
  · unfold delete_item
    simp [List.filter_filter]
  · unfold delete_item
    simp [List.mem_filter]

/-! ### Claim C1 -/

/-- C1: evaluating `create_item` at a perfectly valid input on the empty
store.  The row is inserted with fresh id 1 and
`created_at = updated_at`, and `get_item_by_id 1` returns exactly the
given field values — but the value the method returns to its caller is
`none` (the Python method has no `return` statement), so the caller
cannot retrieve the new item's id, even though the repository's own
`app.py` does `new_id = db.create_item(...)` and then
`db.get_item_by_id(new_id)`. -/
theorem create_item_returns_none :
    create_item emptyDB 0 "Widget" 5 10 "Tools" ""
      = .ok (⟨[⟨1, "Widget", "Tools", 5, 10, "", 0, 0⟩], 2⟩, none)
  ∧ get_item_by_id ⟨[⟨1, "Widget", "Tools", 5, 10, "", 0, 0⟩], 2⟩ 1
      = some ⟨1, "Widget", "Tools", 5, 10, "", 0, 0⟩
  ∧ (⟨1, "Widget", "Tools", 5, 10, "", 0, 0⟩ : Item).created_at
      = (⟨1, "Widget", "Tools", 5, 10, "", 0, 0⟩ : Item).updated_at := by
  refine ⟨?_, ?_, rfl⟩ <;> rfl

/-! ### Claim C5 -/

/-- C5 counterexample: the state holding a single item whose name is the
whitespace-only string `" "` is reachable from the empty store by one
`create_item` call — the store performs no trimming, so whitespace-only
names and categories can be stored, contradicting the claimed
"not whitespace-only" invariant. -/
theorem reachable_whitespace_name :
    Reachable ⟨[⟨1, " ", "c", 0, 0, "", 0, 0⟩], 2⟩
  ∧ ∃ it ∈ (⟨[⟨1, " ", "c", 0, 0, "", 0, 0⟩], 2⟩ : InventoryDatabase).items,
      it.name ≠ "" ∧ it.name.data.all Char.isWhitespace = true := by
  constructor
  · exact Reachable.create emptyDB 0 " " 0 0 "c" ""
      ⟨[⟨1, " ", "c", 0, 0, "", 0, 0⟩], 2⟩ none Reachable.empty rfl
  · exact ⟨⟨1, " ", "c", 0, 0, "", 0, 0⟩, by decide, by decide, by decide⟩

/-- C5 (amended): every reachable store state satisfies the invariant the
code actually maintains — every stored item has a name and category that
are non-empty *strings* (whitespace-only values are possible, since the
store never trims), and a non-negative quantity and price; every
operation preserves this. -/
theorem reachable_wf (db : InventoryDatabase) (h : Reachable db) : Wf db := by
  induction h with
  | empty => intro it hit; exact absurd hit (List.not_mem_nil it)
  | create db now name quantity price category description db' r _ heq ih =>
    unfold create_item at heq
    split_ifs at heq with h1 h2
    · injection heq with heq'
      have hdb' : db'
          = ⟨db.items ++ [⟨db.nextId, name, category, quantity, price,
              description, now, now⟩], db.nextId + 1⟩ := by
        have := congrArg Prod.fst heq'
        simpa using this.symm
      subst hdb'
      intro it hit
      rcases List.mem_append.mp hit with hmem | hmem
      · exact ih it hmem
      · have hit' : it = ⟨db.nextId, name, category, quantity, price,
            description, now, now⟩ := by simpa using hmem
        subst hit'
        push_neg at h1 h2
        exact ⟨h1.1, h1.2, h2.1, h2.2⟩
  | update db now item_id name quantity price category description db' _ heq ih =>
    unfold update_item at heq
    split_ifs at heq with h1 h2
    · injection heq with heq'
      subst heq'
      intro it hit
      rcases List.mem_map.mp hit with ⟨x, hx, hfx⟩
      rw [← hfx]
      unfold updateRow
      push_neg at h1 h2
      by_cases hxid : x.id = item_id
      · rw [if_pos hxid]
        exact ⟨h1.1, h1.2, h2.1, h2.2⟩
      · rw [if_neg hxid]
        exact ih x hx
  | delete db item_id _ ih =>
    intro it hit
    exact ih it (List.mem_filter.mp hit).1

/-- C5 witness. -/
theorem reachable_wf_witness :
    Wf ⟨[⟨1, "Pen", "Office", 3, 2, "", 4, 4⟩], 2⟩ :=
  reachable_wf ⟨[⟨1, "Pen", "Office", 3, 2, "", 4, 4⟩], 2⟩
    (Reachable.create emptyDB 4 "Pen" 3 2 "Office" ""
      ⟨[⟨1, "Pen", "Office", 3, 2, "", 4, 4⟩], 2⟩ none Reachable.empty rfl)

/-! ### Claim C7 -/

/-- C7 counterexample: an update that runs in the same clock second as
the previous write (`CURRENT_TIMESTAMP` has one-second resolution)
succeeds and sets `updated_at` to the *same* value it had before — the
timestamp does not strictly advance. -/
theorem update_item_no_strict_advance :
    update_item ⟨[⟨1, "a", "c", 1, 1, "", 5, 5⟩], 2⟩ 5 1 "b" 2 2 "c2" ""
      = .ok ⟨[⟨1, "b", "c2", 2, 2, "", 5, 5⟩], 2⟩
  ∧ (⟨1, "b", "c2", 2, 2, "", 5, 5⟩ : Item).updated_at
      = (⟨1, "a", "c", 1, 1, "", 5, 5⟩ : Item).updated_at := ⟨rfl, rfl⟩

/-- C7 (amended): a successful `update_item` on a present id overwrites
exactly the mutable fields (`name`, `category`, `quantity`, `price`,
`description`) and sets `updated_at` to the current time — which equals,
rather than strictly exceeds, the old `updated_at` when the clock has
not moved past it — while the item's `id` and `created_at`, and every
other item in the store, remain unchanged. -/
theorem update_item_found (db : InventoryDatabase) (now item_id : Nat)
    (name : String) (quantity : Int) (price : Rat)
    (category description : String) (it0 : Item)
    (hfound : get_item_by_id db item_id = some it0)
    (hn : name ≠ "") (hc : category ≠ "")
    (hq : 0 ≤ quantity) (hp : 0 ≤ price) :
    ∃ db',
      update_item db now item_id name quantity price category description
        = .ok db'
    ∧ get_item_by_id db' item_id
        = some (setClause now name quantity price category description it0)
    ∧ (∀ j, j ≠ item_id → get_item_by_id db' j = get_item_by_id db j)
    ∧ db'.items.length = db.items.length
    ∧ db'.nextId = db.nextId
    ∧ (setClause now name quantity price category description it0).id = it0.id
    ∧ (setClause now name quantity price category description it0).created_at
        = it0.created_at
    ∧ (setClause now name quantity price category description it0).updated_at
        = now := by
  unfold get_item_by_id at hfound
  have hid0 : it0.id = item_id := by simpa using List.find?_some hfound
  have hval1 : ¬(name = "" ∨ category = "") := not_or.mpr ⟨hn, hc⟩
  have hval2 : ¬(quantity < 0 ∨ price < 0) :=
    not_or.mpr ⟨not_lt.mpr hq, not_lt.mpr hp⟩
  refine ⟨⟨db.items.map
      (updateRow now name quantity price category description item_id),
      db.nextId⟩, ?_, ?_, ?_, by simp, rfl, rfl, rfl, rfl⟩
  · unfold update_item
    rw [if_neg hval1, if_neg hval2]
  · unfold get_item_by_id
    show List.find? _ (db.items.map _) = _
    rw [List.find?_map]
    have hcomp : ((fun it : Item => it.id == item_id)
          ∘ updateRow now name quantity price category description item_id)
        = fun it : Item => it.id == item_id := by
      funext x
      simp only [Function.comp]
      rw [updateRow_id]
    rw [hcomp, hfound]
    simp [updateRow, hid0]
  · intro j hj
    unfold get_item_by_id
    show List.find? _ (db.items.map _) = _
    rw [List.find?_map]
    have hcomp : ((fun it : Item => it.id == j)
          ∘ updateRow now name quantity price category description item_id)
        = fun it : Item => it.id == j := by
      funext x
      simp only [Function.comp]
      rw [updateRow_id]
    rw [hcomp]
    cases hfind : db.items.find? (fun it => it.id == j) with
    | none => simp
    | some b =>
      have hbid : b.id ≠ item_id := by
        have : b.id = j := by simpa using List.find?_some hfind
        rw [this]; exact hj
      simp [updateRow, hbid]

/-- C7 witness. -/
theorem update_item_found_witness :
    ∃ db',
      update_item ⟨[⟨1, "a", "c", 1, 1, "", 5, 5⟩], 2⟩ 9 1 "b" 2 2 "d" ""
        = .ok db'
    ∧ get_item_by_id db' 1
        = some (setClause 9 "b" 2 2 "d" "" ⟨1, "a", "c", 1, 1, "", 5, 5⟩)
    ∧ (∀ j, j ≠ 1 →
        get_item_by_id db' j
          = get_item_by_id ⟨[⟨1, "a", "c", 1, 1, "", 5, 5⟩], 2⟩ j)
    ∧ db'.items.length
        = (⟨[⟨1, "a", "c", 1, 1, "", 5, 5⟩], 2⟩ : InventoryDatabase).items.length
    ∧ db'.nextId
        = (⟨[⟨1, "a", "c", 1, 1, "", 5, 5⟩], 2⟩ : InventoryDatabase).nextId
    ∧ (setClause 9 "b" 2 2 "d" "" ⟨1, "a", "c", 1, 1, "", 5, 5⟩).id
        = (⟨1, "a", "c", 1, 1, "", 5, 5⟩ : Item).id
    ∧ (setClause 9 "b" 2 2 "d" "" ⟨1, "a", "c", 1, 1, "", 5, 5⟩).created_at
        = (⟨1, "a", "c", 1, 1, "", 5, 5⟩ : Item).created_at
    ∧ (setClause 9 "b" 2 2 "d" "" ⟨1, "a", "c", 1, 1, "", 5, 5⟩).updated_at
        = 9 :=
  update_item_found ⟨[⟨1, "a", "c", 1, 1, "", 5, 5⟩], 2⟩ 9 1 "b" 2 2 "d" ""
    ⟨1, "a", "c", 1, 1, "", 5, 5⟩ (by decide) (by decide) (by decide)
    (by decide) (by decide)

/-! ### Claim C6 -/

/-- C6 counterexample: `LIKE` metacharacters inside the search term act
as wildcards, so `get_all_items` with `search_term = "a_b"` returns an
item named `"axb"` even though neither its name nor its (empty)
description contains `"a_b"` as a substring, case-insensitively or
otherwise. -/
theorem get_all_items_wildcard_leak :
    get_all_items ⟨[⟨1, "axb", "c", 1, 1, "", 0, 0⟩], 2⟩ none (some "a_b")
      = [⟨1, "axb", "c", 1, 1, "", 0, 0⟩]
  ∧ containsFold "a_b".data "axb".data = false
  ∧ containsFold "a_b".data "".data = false := by
  refine ⟨by decide, by decide, by decide⟩

/-- C6 (amended): `get_all_items` always returns items sorted by `name`
ascending; an item is returned iff it is in the store and passes the
built `WHERE` clause; the two filters combine by logical AND; a
non-empty `category` filter keeps exactly the items whose category is an
exact (as-stored) match; a non-empty `search_term` keeps exactly the
items whose name or description matches the SQL pattern
`LIKE '%term%'` — for terms containing no `%`/`_` wildcard this is
exactly case-insensitive (ASCII-folded) substring containment, but
wildcards in the term are interpreted, not literal; when nothing
matches the result is the empty list, not an error. -/
theorem get_all_items_spec (db : InventoryDatabase)
    (category search_term : Option String) :
    List.Sorted itemLe (get_all_items db category search_term)
  ∧ (∀ it, it ∈ get_all_items db category search_term
        ↔ it ∈ db.items ∧ rowMatches category search_term it = true)
  ∧ (∀ it, rowMatches category search_term it
        = (rowMatches category none it && rowMatches none search_term it))
  ∧ (∀ c, c ≠ "" → ∀ it : Item,
        (rowMatches (some c) none it = true ↔ it.category = c))
  ∧ (∀ t, t ≠ "" → wildcardFree t.data = true → ∀ it : Item,
        (rowMatches none (some t) it = true ↔
          containsFold t.data it.name.data = true
          ∨ containsFold t.data it.description.data = true))
  ∧ ((∀ it ∈ db.items, rowMatches category search_term it = false) →
        get_all_items db category search_term = []) := by
  refine ⟨sorted_get_all_items db category search_term,
    fun it => mem_get_all_items, fun it => ?_, fun c hc it => ?_,
    fun t ht hw it => ?_, fun hnone => ?_⟩
  · cases category <;> cases search_term <;> simp [rowMatches]
  · simp [rowMatches, hc]
  · simp only [rowMatches, Bool.true_and, if_neg ht, Bool.or_eq_true]
    rw [likeMatch_contains t.data hw, likeMatch_contains t.data hw]
  · refine List.eq_nil_iff_forall_not_mem.mpr fun it hit => ?_
    obtain ⟨hmem, hmatch⟩ := mem_get_all_items.mp hit
    rw [hnone it hmem] at hmatch
    exact absurd hmatch (by decide)

/-- C6 witness. -/
theorem get_all_items_spec_witness :
    rowMatches none (some "pen") ⟨1, "Pencil", "Office", 1, 1, "", 0, 0⟩ = true
      ↔ containsFold "pen".data "Pencil".data = true
        ∨ containsFold "pen".data "".data = true :=
  (get_all_items_spec emptyDB none (some "pen")).2.2.2.2.1 "pen" (by decide)
    (by decide) ⟨1, "Pencil", "Office", 1, 1, "", 0, 0⟩

/-! ### Claim C9 -/

/-- C9: `get_categories` returns the distinct category values present
across all items, sorted and without duplicates (empty when there are no
items, since membership is equivalent to some item carrying the value);
for each category `c` in it, `get_all_items(category=c)` returns exactly
the items whose category equals `c`; and an item is in the unfiltered
listing iff it is in the listing of some listed category — so the union
over all distinct categories reconstructs the full item set.  (Stated
for stores whose items all have non-empty categories, which holds for
every reachable store.) -/
theorem get_categories_spec (db : InventoryDatabase)
    (hwf : ∀ it ∈ db.items, it.category ≠ "") :
    List.Sorted strLe (get_categories db)
  ∧ (get_categories db).Nodup
  ∧ (∀ c, c ∈ get_categories db ↔ ∃ it ∈ db.items, it.category = c)
  ∧ (∀ c, c ∈ get_categories db →
      ∀ it, it ∈ get_all_items db (some c) none
        ↔ it ∈ db.items ∧ it.category = c)
  ∧ (∀ it, it ∈ get_all_items db none none
      ↔ ∃ c ∈ get_categories db, it ∈ get_all_items db (some c) none) := by
  have hmemcat : ∀ c, c ∈ get_categories db
      ↔ ∃ it ∈ db.items, it.category = c := by
    intro c
    unfold get_categories
    rw [List.mem_insertionSort, List.mem_dedup, List.mem_map]
  have hpercat : ∀ c, c ∈ get_categories db →
      ∀ it, it ∈ get_all_items db (some c) none
        ↔ it ∈ db.items ∧ it.category = c := by
    intro c hcmem it
    have hcne : c ≠ "" := by
      obtain ⟨it', hm', he'⟩ := (hmemcat c).mp hcmem
      rw [← he']
      exact hwf it' hm'
    rw [mem_get_all_items]
    constructor
    · rintro ⟨hm, hmatch⟩
      refine ⟨hm, ?_⟩
      simpa [rowMatches, hcne] using hmatch
    · rintro ⟨hm, he⟩
      exact ⟨hm, by simp [rowMatches, hcne, he]⟩
  refine ⟨List.sorted_insertionSort strLe _, ?_, hmemcat, hpercat, ?_⟩
  · exact ((List.perm_insertionSort strLe _).nodup_iff).mpr
      (List.nodup_dedup _)
  · intro it
    rw [mem_get_all_items]
    constructor
    · rintro ⟨hm, _⟩
      have hc : it.category ∈ get_categories db :=
        (hmemcat _).mpr ⟨it, hm, rfl⟩
      exact ⟨it.category, hc, (hpercat it.category hc it).mpr ⟨hm, rfl⟩⟩
    · rintro ⟨c, hcmem, hit⟩
      have h := (hpercat c hcmem it).mp hit
      exact ⟨h.1, by simp [rowMatches]⟩

/-- C9 witness. -/
theorem get_categories_spec_witness :
    List.Sorted strLe
      (get_categories ⟨[⟨1, "a", "Office", 1, 1, "", 0, 0⟩], 2⟩) :=
  (get_categories_spec ⟨[⟨1, "a", "Office", 1, 1, "", 0, 0⟩], 2⟩
    (by decide)).1
